import Mathlib

/-!
Shallow embedding of the text-extraction core of the TextExtract Pro
repository: the confidence heuristics and refusal detector of
`src/lib/openai.ts`, the enhancement and document-extraction flows, the
per-user analytics triggers of the `warm_temple` SQL migration, the batch
loop of `pages/ExtractPage.tsx`, and the `extract-text` edge-function
request handler.  Text is modelled as `List Char`, JS numbers as `ℚ`
(the spec speaks of exact means), fallible code as `Except`, and network
calls as explicit outcome parameters.
-/

/-- ASCII whitespace recognised by the JS regex class `\s`
(space, tab, line feed, carriage return, vertical tab, form feed). -/
def isWs (c : Char) : Bool :=
  c = ' ' || c = '\t' || c = '\n' || c = '\r' || c = '\x0b' || c = '\x0c'

/-- ASCII lower-casing, as `String.prototype.toLowerCase` acts on ASCII. -/
def lowerChar (c : Char) : Char :=
  if 'A' ≤ c ∧ c ≤ 'Z' then Char.ofNat (c.toNat + 32) else c

/-- Model of `text.toLowerCase()`. -/
def toLowerList (t : List Char) : List Char := t.map lowerChar

/-- ASCII digit, the JS regex class `\d`. -/
def isDigitChar (c : Char) : Bool := '0' ≤ c && c ≤ '9'

/-- ASCII letter. -/
def isAsciiLetter (c : Char) : Bool :=
  ('a' ≤ c && c ≤ 'z') || ('A' ≤ c && c ≤ 'Z')

/-- JS word character `\w`, that is `[A-Za-z0-9_]`. -/
def isWordChar (c : Char) : Bool := isAsciiLetter c || isDigitChar c || c = '_'

/-- Sentence-ending punctuation, the regex `[.!?]` used for `hasStructure`. -/
def isSentencePunct (c : Char) : Bool := c = '.' || c = '!' || c = '?'

/-- Formatting characters, the regex `[:\-\|]` used for `hasFormatting`. -/
def isFormattingChar (c : Char) : Bool := c = ':' || c = '-' || c = '|'

/-- Worker for `splitWs`: walks the text, accumulating the current chunk
(reversed) and a flag recording whether the previous character was
whitespace, emitting a chunk at each first whitespace character and at the
end, exactly reproducing `text.split(/\s+/)` including the empty boundary
chunks JS produces for leading and trailing whitespace. -/
def splitWsGo : List Char → List Char → Bool → List (List Char)
  | [], cur, _ => [cur.reverse]
  | c :: rest, cur, prevWs =>
    if isWs c then
      if prevWs then splitWsGo rest cur true
      else cur.reverse :: splitWsGo rest [] true
    else splitWsGo rest (c :: cur) false

/-- Model of `text.split(/\s+/)`. -/
def splitWs (t : List Char) : List (List Char) := splitWsGo t [] false

/-- Model of `text.split(/\s+/).length`, the word count of the heuristics. -/
def wordCount (t : List Char) : ℕ := (splitWs t).length

/-- Model of `text.trim()`: strips whitespace from both ends. -/
def trim (t : List Char) : List Char :=
  ((t.dropWhile isWs).reverse.dropWhile isWs).reverse

/-- JS `x || d` on an optional string: `none`, and the empty string, are
falsy and give the default. -/
def jsOr (x : Option (List Char)) (d : List Char) : List Char :=
  match x with
  | none => d
  | some s => if s.isEmpty then d else s

/-- Count of matches of `/[^\w\s]/g`, the `specialChars` of
`calculateConfidence`: characters that are neither word characters
(`[A-Za-z0-9_]`) nor whitespace. -/
def specialCharCount (t : List Char) : ℕ :=
  (t.filter (fun c => !(isWordChar c) && !(isWs c))).length

/-- Count of characters that are neither alphanumeric nor whitespace,
read literally off the spec sentence "count of non-alphanumeric/non-space
characters"; unlike `specialCharCount` this counts the underscore. -/
def claimedSpecialCount (t : List Char) : ℕ :=
  (t.filter (fun c => !(isAsciiLetter c || isDigitChar c) && !(isWs c))).length

/-- The image-path confidence heuristic `calculateConfidence` of
`src/lib/openai.ts` (identical in the `extract-text` edge function):
0.3 for empty or short text, otherwise a base of 0.5 accumulated through
the four feature bonuses and capped at 0.98. -/
def calculateConfidence (t : List Char) : ℚ :=
  if t.isEmpty ∨ t.length < 10 then 3/10
  else
    let confidence : ℚ := 1/2
    let confidence := if wordCount t > 20 then confidence + 2/10 else confidence
    let confidence := if t.any isSentencePunct then confidence + 15/100 else confidence
    let confidence := if t.any isDigitChar then confidence + 1/10 else confidence
    let confidence := if specialCharCount t > 5 then confidence + 5/100 else confidence
    min confidence (98/100)

/-- The image-path heuristic as the spec sentence words it, with the
special-character clause read literally (non-alphanumeric, non-space, so
counting the underscore). -/
def confidenceSpecFormula (t : List Char) : ℚ :=
  if t.isEmpty ∨ t.length < 10 then 3/10
  else
    min (1/2 + (if wordCount t > 20 then (2:ℚ)/10 else 0)
            + (if t.any isSentencePunct then (15:ℚ)/100 else 0)
            + (if t.any isDigitChar then (1:ℚ)/10 else 0)
            + (if claimedSpecialCount t > 5 then (5:ℚ)/100 else 0))
        (98/100)

/-- The image-path heuristic as the spec words it, amended only in the
special-character clause: it counts the matches of `[^\w\s]`, so the
underscore is a word character, not a special character. -/
def confidenceAmendedFormula (t : List Char) : ℚ :=
  if t.isEmpty ∨ t.length < 10 then 3/10
  else
    min (1/2 + (if wordCount t > 20 then (2:ℚ)/10 else 0)
            + (if t.any isSentencePunct then (15:ℚ)/100 else 0)
            + (if t.any isDigitChar then (1:ℚ)/10 else 0)
            + (if specialCharCount t > 5 then (5:ℚ)/100 else 0))
        (98/100)

/-- The document-path confidence heuristic `calculateDocumentConfidence`
of `src/lib/openai.ts`: base 0.6 with content and file-type bonuses,
capped at 0.95, with the same 0.3 short-text floor. -/
def calculateDocumentConfidence (t : List Char) (fileType : List Char) : ℚ :=
  if t.isEmpty ∨ t.length < 10 then 3/10
  else
    let confidence : ℚ := 6/10
    let confidence := if wordCount t > 50 then confidence + 15/100 else confidence
    let confidence := if t.any isSentencePunct then confidence + 1/10 else confidence
    let confidence := if t.any isDigitChar then confidence + 5/100 else confidence
    let confidence := if t.any isFormattingChar then confidence + 5/100 else confidence
    let confidence := if fileType = String.toList "application/pdf" then confidence + 1/10 else confidence
    let confidence := if (String.toList "text/").isPrefixOf fileType then confidence + 2/10 else confidence
    min confidence (95/100)

/-- The apostrophe character, used inside two refusal patterns. -/
def apos : Char := Char.ofNat 39

/-- The fixed refusal markers of `isRefusalResponse`. -/
def refusalPatterns : List (List Char) :=
  [ String.toList "sorry"
  , String.toList "cannot"
  , String.toList "unable"
  , String.toList "not able"
  , String.toList "can" ++ [apos] ++ String.toList "t"
  , String.toList "base64"
  , String.toList "decoder"
  , String.toList "as an ai"
  , String.toList "i" ++ [apos] ++ String.toList "m sorry"
  ]

/-- Model of `text.includes(pattern)`: `pattern` occurs as a contiguous
substring of `text`. -/
def includes (t p : List Char) : Bool := decide (p <:+: t)

/-- The refusal detector `isRefusalResponse` of `src/lib/openai.ts`:
lower-cases the text and reports whether any fixed marker occurs as a
substring. -/
def isRefusalResponse (t : List Char) : Bool :=
  refusalPatterns.any (fun p => includes (toLowerList t) p)

/-- Error taxonomy of the spec, mapped onto the `Error` messages the
source throws: missing credentials, empty trimmed input, a failed or
non-success service response, and no usable extracted text. -/
inductive ServiceError
  | configurationError
  | validationError
  | externalServiceError
  | extractionError
deriving DecidableEq

/-- Outcome of one outbound service call. `transportFail` covers a
rejected `fetch` and (where the caller checks `response.ok` and throws) a
non-success HTTP status; `serviceOk content` carries
`data.choices[0]?.message?.content`, with `none` for an absent field. -/
inductive CallOutcome
  | transportFail
  | serviceOk (content : Option (List Char))
deriving DecidableEq

/-- Body of `enhanceExtractedText` in `src/lib/openai.ts`, the part inside
its `try`: throws on empty trimmed input, propagates a failed service
call, and otherwise applies the refusal check, degrading to the original
text with confidence 0.8, or returning the service text with 0.95. -/
def enhanceExtractedTextBody (text : List Char) (o : CallOutcome) :
    Except ServiceError (List Char × ℚ) :=
  if (trim text).isEmpty then .error .validationError
  else
    match o with
    | .transportFail => .error .externalServiceError
    | .serviceOk content =>
      let enhancedText := jsOr content text
      if isRefusalResponse enhancedText then .ok (text, 8/10)
      else .ok (enhancedText, 95/100)

/-- The public `enhanceExtractedText`: its `catch` block turns every
error of the body — including its own empty-input throw — into the
degraded result of the original text with confidence 0.7, so the
operation never raises. -/
def enhanceExtractedText (text : List Char) (o : CallOutcome) : List Char × ℚ :=
  match enhanceExtractedTextBody text o with
  | .ok r => r
  | .error _ => (text, 7/10)

/-- The fallback string of `extractWithAlternativeMethod`:
`data.choices[0]?.message?.content || 'Unable to extract text from this document type'`. -/
def altFallbackMsg : List Char :=
  String.toList "Unable to extract text from this document type"

/-- `extractWithAlternativeMethod` of `src/lib/openai.ts`: one retry call
with a terse truncated prompt; it performs no `response.ok` check, takes
the returned content or the fixed fallback message, and reports
confidence 0.7.  A rejected `fetch`/`json()` still propagates as an
error. -/
def extractWithAlternativeMethod (o : CallOutcome) :
    Except ServiceError (List Char × ℚ) :=
  match o with
  | .transportFail => .error .externalServiceError
  | .serviceOk content => .ok (jsOr content altFallbackMsg, 7/10)

/-- `extractTextFromDocument` of `src/lib/openai.ts`: requires a
non-blank API key, propagates service failure, throws `extractionError`
when the returned text is empty after trimming, retries through
`extractWithAlternativeMethod` on a detected refusal, and otherwise
scores the text with the document heuristic.  `o1` is the main call,
`o2` the retry call. -/
def extractTextFromDocument (apiKey fileType : List Char)
    (o1 o2 : CallOutcome) : Except ServiceError (List Char × ℚ) :=
  if (trim apiKey).isEmpty then .error .configurationError
  else
    match o1 with
    | .transportFail => .error .externalServiceError
    | .serviceOk content =>
      let extractedText := jsOr content []
      if (trim extractedText).isEmpty then .error .extractionError
      else if isRefusalResponse extractedText then extractWithAlternativeMethod o2
      else .ok (extractedText, calculateDocumentConfidence extractedText fileType)

/-- One row of the `extractions` table, reduced to the two fields the
analytics triggers read: `length(extracted_text)` and `confidence_score`. -/
structure ExtractionRecord where
  text_length : ℕ
  confidence_score : ℚ
deriving DecidableEq

/-- One row of the `user_analytics` table.  The SQL counters are
integers kept non-negative by the triggers, so they are modelled as `ℕ`;
`average_confidence` is modelled exactly as `ℚ`. -/
structure UserAnalytics where
  total_extractions : ℕ
  total_files_processed : ℕ
  total_text_extracted : ℕ
  average_confidence : ℚ
deriving DecidableEq

/-- The `update_user_analytics_on_extraction` trigger of the
`warm_temple` migration: an upsert that creates the aggregate with counts
1 on first insert and otherwise increments the counters and folds the new
confidence into the running average. -/
def update_user_analytics_on_extraction (a : Option UserAnalytics)
    (r : ExtractionRecord) : UserAnalytics :=
  match a with
  | none =>
    { total_extractions := 1
      total_files_processed := 1
      total_text_extracted := r.text_length
      average_confidence := r.confidence_score }
  | some u =>
    { total_extractions := u.total_extractions + 1
      total_files_processed := u.total_files_processed + 1
      total_text_extracted := u.total_text_extracted + r.text_length
      average_confidence :=
        (u.average_confidence * u.total_extractions + r.confidence_score) /
          (u.total_extractions + 1) }

/-- The client-side `updateUserAnalytics` of `pages/ExtractPage.tsx`,
which implements the same select-then-update-or-insert arithmetic as the
SQL insert trigger. -/
def updateUserAnalytics (a : Option UserAnalytics) (textLength : ℕ)
    (confidence : ℚ) : UserAnalytics :=
  match a with
  | some ex =>
    { total_extractions := ex.total_extractions + 1
      total_files_processed := ex.total_files_processed + 1
      total_text_extracted := ex.total_text_extracted + textLength
      average_confidence :=
        (ex.average_confidence * ex.total_extractions + confidence) /
          (ex.total_extractions + 1) }
  | none =>
    { total_extractions := 1
      total_files_processed := 1
      total_text_extracted := textLength
      average_confidence := confidence }

/-- Sum of the text lengths of a list of extraction records. -/
def lenSum (evs : List ExtractionRecord) : ℕ :=
  (evs.map ExtractionRecord.text_length).sum

/-- Sum of the confidence scores of a list of extraction records. -/
def confSum (evs : List ExtractionRecord) : ℚ :=
  (evs.map ExtractionRecord.confidence_score).sum

/-- Mean confidence over a set of records, the
`COALESCE((SELECT AVG(confidence_score) ...), 0.0)` of the delete
trigger: 0 for the empty set. -/
def avgConfidence (l : List ExtractionRecord) : ℚ :=
  if l = [] then 0 else confSum l / l.length

/-- Folding a sequence of `onExtractionCreated` events over an initially
absent aggregate, each event firing the insert trigger once. -/
def runCreated (evs : List ExtractionRecord) : Option UserAnalytics :=
  evs.foldl (fun a r => some (update_user_analytics_on_extraction a r)) none

/-- One user's slice of the database: the extraction rows and the
(possibly absent) analytics row. -/
structure AnalyticsState where
  extractions : List ExtractionRecord
  analytics : Option UserAnalytics
deriving DecidableEq

/-- The empty database: no rows and no aggregate. -/
def initState : AnalyticsState := ⟨[], none⟩

/-- The `update_user_analytics_on_extraction_delete` trigger: floored
decrements of the counters (`GREATEST(0, ...)`, which is `ℕ`
subtraction), then a full recomputation of the average over the rows that
remain after the deletion; an absent analytics row is left absent
(`UPDATE` matches nothing). -/
def update_user_analytics_on_extraction_delete (a : Option UserAnalytics)
    (r : ExtractionRecord) (remaining : List ExtractionRecord) :
    Option UserAnalytics :=
  a.map fun u =>
    { total_extractions := u.total_extractions - 1
      total_files_processed := u.total_files_processed - 1
      total_text_extracted := u.total_text_extracted - r.text_length
      average_confidence := avgConfidence remaining }

/-- A database event on the `extractions` table: inserting a row, or
deleting the row at a position. -/
inductive DbEvent
  | insert (r : ExtractionRecord)
  | delete (i : ℕ)
deriving DecidableEq

/-- Applying one event: an insert appends the row and fires the insert
trigger; a delete of an existing row removes it and fires the delete
trigger, and a delete of a non-existent row changes nothing. -/
def applyDbEvent (s : AnalyticsState) : DbEvent → AnalyticsState
  | .insert r =>
    ⟨s.extractions ++ [r], some (update_user_analytics_on_extraction s.analytics r)⟩
  | .delete i =>
    match s.extractions[i]? with
    | none => s
    | some r =>
      ⟨s.extractions.eraseIdx i,
       update_user_analytics_on_extraction_delete s.analytics r
         (s.extractions.eraseIdx i)⟩

/-- Running a sequence of events from the empty database. -/
def applyDbEvents (evs : List DbEvent) : AnalyticsState :=
  evs.foldl applyDbEvent initState

/-- The spec's aggregate invariant: when no analytics row exists there
are no extraction rows, and when one exists its `total_extractions`
equals the number of extraction rows and its `average_confidence` equals
their mean confidence (0 for the empty set). -/
def analyticsInvariant (s : AnalyticsState) : Prop :=
  (s.analytics = none → s.extractions = []) ∧
  ∀ u, s.analytics = some u →
    u.total_extractions = s.extractions.length ∧
    u.average_confidence = avgConfidence s.extractions

/-- One file of a batch submission, reduced to the fields the batch loop
inspects: its name and its size in bytes. -/
structure BatchFile where
  name : List Char
  size : ℕ
deriving DecidableEq

/-- The per-file result shape of `ExtractPage.tsx`. -/
structure PageResult where
  fileName : List Char
  extractedText : List Char
  confidence : ℚ
  processingTime : ℕ
deriving DecidableEq

/-- The per-file user-visible outcome of the batch loop: the success
toast together with the pushed result row, or the failure toast naming
the file. -/
inductive BatchOutcome
  | success (fileName : List Char) (r : PageResult)
  | failure (fileName : List Char)
deriving DecidableEq

/-- The `for (const file of files)` loop of `handleFileSelect`: files are
processed one after the other; a successful `processFile` pushes its
result and reports success, a thrown error is caught and reported as that
file's failure, and the loop continues either way.  Returns the
accumulated result rows together with the per-file outcome stream, both
in submission order. -/
def batchLoop (process : BatchFile → Except Unit PageResult) :
    List BatchFile → List PageResult × List BatchOutcome
  | [] => ([], [])
  | f :: rest =>
    match process f with
    | .ok r =>
      (r :: (batchLoop process rest).1,
       .success f.name r :: (batchLoop process rest).2)
    | .error _ =>
      ((batchLoop process rest).1,
       .failure f.name :: (batchLoop process rest).2)

/-- The expected single outcome for one file, given its processing
result. -/
def fileOutcome (process : BatchFile → Except Unit PageResult)
    (f : BatchFile) : BatchOutcome :=
  match process f with
  | .ok r => .success f.name r
  | .error _ => .failure f.name

/-- `handleFileSelect` of `ExtractPage.tsx`: an empty selection and a
batch containing any file over 10 MiB are rejected before any processing;
otherwise the sequential loop runs over the whole batch. -/
def handleFileSelect (process : BatchFile → Except Unit PageResult)
    (files : List BatchFile) : Option (List PageResult × List BatchOutcome) :=
  if files.isEmpty then none
  else if files.any (fun f => f.size > 10 * 1024 * 1024) then none
  else some (batchLoop process files)

/-- HTTP method of a request to the `extract-text` edge function, as the
handler distinguishes them: the CORS preflight, `POST`, and everything
else. -/
inductive HttpMethod
  | options
  | post
  | other
deriving DecidableEq

/-- Request body of the `extract-text` edge function.  An absent or empty
string field is falsy in the JS checks, so the three required fields are
plain lists with `[]` standing for missing. -/
structure ExtractTextRequest where
  file_data : List Char
  file_name : List Char
  file_type : List Char
  openai_api_key : Option (List Char)
  user_id : Option (List Char)
  enhance_text : Bool
deriving DecidableEq

/-- Response of the edge function, reduced to the fields the claims
speak about: HTTP status, the `success` flag, the `error` string, and
the `(extracted_text, confidence_score)` payload. -/
structure ServerResponse where
  status : ℕ
  success : Bool
  error : Option (List Char)
  data : Option (List Char × ℚ)
deriving DecidableEq

/-- Side effects of one handler run: how many OpenAI calls were issued
and whether an insert into `extractions` was attempted. -/
structure HandlerEffects where
  openaiCalls : ℕ
  dbInserts : ℕ
deriving DecidableEq

/-- The non-image rejection message of the edge function. -/
def docNotImplementedMsg : List Char :=
  String.toList "Document parsing not yet implemented. Currently only supports image files."

/-- The `accept` map keys of the `FileUpload` dropzone: the MIME families
the upload interface admits. -/
def acceptedUploadTypes : List (List Char) :=
  [ String.toList "image/*"
  , String.toList "application/pdf"
  , String.toList "text/*"
  , String.toList "application/msword"
  , String.toList "application/vnd.openxmlformats-officedocument.wordprocessingml.document"
  ]

/-- The `Deno.serve` handler of `supabase/functions/extract-text`:
preflight and method gates, required-field validation, then the
image-only extraction path — API key required, one vision call, an
optional enhancement call whose failure degrades to confidence 0.7
(`enhanceText` has no refusal check), a best-effort insert when
`user_id` is present — while every other `file_type` is answered 400
with the fixed message before any service call or insert. -/
def extractTextHandler (method : HttpMethod) (req : ExtractTextRequest)
    (imageOutcome enhanceOutcome : CallOutcome) :
    ServerResponse × HandlerEffects :=
  match method with
  | .options => (⟨200, true, none, none⟩, ⟨0, 0⟩)
  | .other => (⟨405, false, some (String.toList "Method not allowed"), none⟩, ⟨0, 0⟩)
  | .post =>
    if req.file_data.isEmpty ∨ req.file_name.isEmpty ∨ req.file_type.isEmpty then
      (⟨400, false,
        some (String.toList "Missing required fields: file_data, file_name, file_type"),
        none⟩, ⟨0, 0⟩)
    else if (String.toList "image/").isPrefixOf req.file_type then
      match req.openai_api_key with
      | none =>
        (⟨400, false,
          some (String.toList "OpenAI API key required for image text extraction"),
          none⟩, ⟨0, 0⟩)
      | some key =>
        if key.isEmpty then
          (⟨400, false,
            some (String.toList "OpenAI API key required for image text extraction"),
            none⟩, ⟨0, 0⟩)
        else
          match imageOutcome with
          | .transportFail =>
            (⟨500, false, some (String.toList "OpenAI API error"), none⟩, ⟨1, 0⟩)
          | .serviceOk content =>
            let extractedText := jsOr content []
            let step :=
              if req.enhance_text ∧ ¬ extractedText.isEmpty then
                match enhanceOutcome with
                | .transportFail =>
                  (extractedText, max (calculateConfidence extractedText) (7/10), 2)
                | .serviceOk ec =>
                  (jsOr ec extractedText,
                   max (calculateConfidence extractedText) (95/100), 2)
              else (extractedText, calculateConfidence extractedText, 1)
            (⟨200, true, none, some (step.1, step.2.1)⟩,
             ⟨step.2.2, if req.user_id.isSome then 1 else 0⟩)
    else
      (⟨400, false, some docNotImplementedMsg, none⟩, ⟨0, 0⟩)

theorem splitWsGo_length_le : ∀ (l cur : List Char) (b : Bool),
    (splitWsGo l cur b).length ≤ l.length + 1 := by
  intro l
  induction l with
  | nil => intro cur b; simp [splitWsGo]
  | cons c rest ih =>
    intro cur b
    simp only [splitWsGo]
    split_ifs with h1 h2
    · exact le_trans (ih cur true) (by simp)
    · simpa using Nat.succ_le_succ (ih [] true)
    · exact le_trans (ih (c :: cur) false) (by simp)

theorem wordCount_le (t : List Char) : wordCount t ≤ t.length + 1 :=
  splitWsGo_length_le t [] false

theorem ne_nil_of_trim {t : List Char} (h : (trim t).isEmpty = false) : t ≠ [] := by
  intro hnil; subst hnil; simp [trim] at h

theorem jsOr_ne_nil {x : Option (List Char)} {d : List Char} (hd : d ≠ []) :
    jsOr x d ≠ [] := by
  cases x with
  | none => simpa [jsOr] using hd
  | some s =>
    simp only [jsOr]
    split_ifs with h
    · exact hd
    · simpa [List.isEmpty_iff] using h

theorem lenSum_cons (r : ExtractionRecord) (t : List ExtractionRecord) :
    lenSum (r :: t) = r.text_length + lenSum t := by simp [lenSum]

theorem confSum_cons (r : ExtractionRecord) (t : List ExtractionRecord) :
    confSum (r :: t) = r.confidence_score + confSum t := by simp [confSum]

theorem confSum_append (l1 l2 : List ExtractionRecord) :
    confSum (l1 ++ l2) = confSum l1 + confSum l2 := by
  simp [confSum]

theorem avgConfidence_snoc (l : List ExtractionRecord) (r : ExtractionRecord) :
    avgConfidence (l ++ [r]) = (confSum l + r.confidence_score) / ((l.length : ℚ) + 1) := by
  rw [avgConfidence, if_neg (by simp)]
  simp [confSum_append, confSum]

theorem runCreated_from :
    ∀ (evs : List ExtractionRecord) (u : UserAnalytics), 0 < u.total_extractions →
      evs.foldl (fun a r => some (update_user_analytics_on_extraction a r)) (some u) =
        some { total_extractions := u.total_extractions + evs.length
               total_files_processed := u.total_files_processed + evs.length
               total_text_extracted := u.total_text_extracted + lenSum evs
               average_confidence :=
                 (u.average_confidence * (u.total_extractions : ℚ) + confSum evs) /
                   ((u.total_extractions : ℚ) + (evs.length : ℚ)) } := by
  intro evs
  induction evs with
  | nil =>
    intro u hu
    have hk : ((u.total_extractions : ℚ)) ≠ 0 := by
      exact_mod_cast Nat.pos_iff_ne_zero.mp hu
    simp [lenSum, confSum, mul_div_assoc, div_self hk]
  | cons r t ih =>
    intro u hu
    rw [List.foldl_cons]
    rw [ih (update_user_analytics_on_extraction (some u) r)
        (by simp [update_user_analytics_on_extraction])]
    have h1 : ((u.total_extractions : ℚ)) + 1 ≠ 0 := by positivity
    have h2 : ((u.total_extractions : ℚ)) + ((t.length : ℚ) + 1) ≠ 0 := by positivity
    simp only [update_user_analytics_on_extraction, lenSum_cons, confSum_cons,
      List.length_cons, Option.some.injEq, UserAnalytics.mk.injEq]
    refine ⟨by omega, by omega, by omega, ?_⟩
    push_cast
    field_simp
    ring

/-- Claim C1: starting with no aggregate, a sequence of n
`onExtractionCreated` events (the insert trigger, whose arithmetic the
client-side `updateUserAnalytics` duplicates) yields an aggregate with
both counters equal to n, `totalTextExtracted` equal to the sum of the
supplied text lengths, and `averageConfidence` equal to the exact mean of
the supplied confidences; in particular three calls with confidences
0.9, 0.8, 0.7 give `totalExtractions = 3` and `averageConfidence = 0.8`. -/
theorem runCreated_counts_and_mean :
    (∀ evs : List ExtractionRecord, evs ≠ [] →
       runCreated evs =
         some { total_extractions := evs.length
                total_files_processed := evs.length
                total_text_extracted := lenSum evs
                average_confidence := confSum evs / (evs.length : ℚ) }) ∧
    (∀ l1 l2 l3 : ℕ,
       runCreated [⟨l1, 9/10⟩, ⟨l2, 8/10⟩, ⟨l3, 7/10⟩] =
         some { total_extractions := 3
                total_files_processed := 3
                total_text_extracted := l1 + (l2 + l3)
                average_confidence := 8/10 }) := by
  have main : ∀ evs : List ExtractionRecord, evs ≠ [] →
      runCreated evs =
        some { total_extractions := evs.length
               total_files_processed := evs.length
               total_text_extracted := lenSum evs
               average_confidence := confSum evs / (evs.length : ℚ) } := by
    intro evs hne
    cases evs with
    | nil => exact absurd rfl hne
    | cons r t =>
      unfold runCreated
      rw [List.foldl_cons]
      rw [runCreated_from t (update_user_analytics_on_extraction none r)
          (by simp [update_user_analytics_on_extraction])]
      simp only [update_user_analytics_on_extraction, lenSum_cons, confSum_cons,
        List.length_cons, Option.some.injEq, UserAnalytics.mk.injEq]
      refine ⟨by omega, by omega, by simp, ?_⟩
      push_cast
      ring
  refine ⟨main, ?_⟩
  intro l1 l2 l3
  rw [main _ (by simp)]
  simp [lenSum, confSum]
  norm_num

/-- Two concrete extraction events used to witness `runCreated_counts_and_mean`. -/
def c1DemoEvents : List ExtractionRecord := [⟨12, 1/2⟩, ⟨8, 1⟩]

theorem runCreated_counts_and_mean_witness :
    runCreated c1DemoEvents =
      some { total_extractions := c1DemoEvents.length
             total_files_processed := c1DemoEvents.length
             total_text_extracted := lenSum c1DemoEvents
             average_confidence := confSum c1DemoEvents / (c1DemoEvents.length : ℚ) } :=
  runCreated_counts_and_mean.1 c1DemoEvents (by decide)

theorem applyDbEvent_inv (s : AnalyticsState) (e : DbEvent)
    (h : analyticsInvariant s) : analyticsInvariant (applyDbEvent s e) := by
  obtain ⟨hnone, hsome⟩ := h
  cases e with
  | insert r =>
    have hstate : applyDbEvent s (.insert r) =
        ⟨s.extractions ++ [r],
         some (update_user_analytics_on_extraction s.analytics r)⟩ := rfl
    rw [hstate]
    constructor
    · intro hc; exact absurd hc (by simp)
    · intro u hu
      change some (update_user_analytics_on_extraction s.analytics r) = some u at hu
      injection hu with hu
      subst hu
      change (update_user_analytics_on_extraction s.analytics r).total_extractions
          = (s.extractions ++ [r]).length ∧
        (update_user_analytics_on_extraction s.analytics r).average_confidence
          = avgConfidence (s.extractions ++ [r])
      cases ha : s.analytics with
      | none =>
        have hrecs := hnone ha
        rw [hrecs]
        simp [update_user_analytics_on_extraction, avgConfidence, confSum]
      | some u0 =>
        obtain ⟨hte, havg⟩ := hsome u0 ha
        constructor
        · simp [update_user_analytics_on_extraction, hte]
        · simp only [update_user_analytics_on_extraction]
          rw [avgConfidence_snoc, havg, hte]
          by_cases hnil : s.extractions = []
          · simp [hnil, avgConfidence, confSum]
          · rw [avgConfidence, if_neg hnil]
            have hlen : ((s.extractions.length : ℚ)) ≠ 0 := by
              have := List.length_pos.mpr hnil
              exact_mod_cast Nat.pos_iff_ne_zero.mp this
            rw [div_mul_cancel₀ _ hlen]
  | delete i =>
    cases hgi : s.extractions[i]? with
    | none =>
      have hstate : applyDbEvent s (.delete i) = s := by
        simp [applyDbEvent, hgi]
      rw [hstate]
      exact ⟨hnone, hsome⟩
    | some r =>
      have hi : i < s.extractions.length := by
        rcases List.getElem?_eq_some_iff.mp hgi with ⟨h', -⟩
        exact h'
      have hstate : applyDbEvent s (.delete i) =
          ⟨s.extractions.eraseIdx i,
           update_user_analytics_on_extraction_delete s.analytics r
             (s.extractions.eraseIdx i)⟩ := by
        simp [applyDbEvent, hgi]
      rw [hstate]
      cases ha : s.analytics with
      | none =>
        have hrecs := hnone ha
        rw [hrecs] at hi
        simp at hi
      | some u0 =>
        obtain ⟨hte, -⟩ := hsome u0 ha
        constructor
        · intro hc
          simp [update_user_analytics_on_extraction_delete] at hc
        · intro u hu
          simp only [update_user_analytics_on_extraction_delete, Option.map_some',
            Option.some.injEq] at hu
          subst hu
          refine ⟨?_, rfl⟩
          simp [hte, List.length_eraseIdx_of_lt hi]

/-- Claim C2: for every sequence of extraction inserts and deletes,
starting from the empty database and letting each operation fire its
analytics trigger, the stored `averageConfidence` equals the arithmetic
mean of the confidence scores of the user's current extraction rows
(0 for the empty set) and `totalExtractions` equals the number of those
rows; the invariant therefore holds after every insert and every delete. -/
theorem analyticsInvariant_applyDbEvents :
    ∀ evs : List DbEvent, analyticsInvariant (applyDbEvents evs) := by
  have gen : ∀ (evs : List DbEvent) (s : AnalyticsState), analyticsInvariant s →
      analyticsInvariant (evs.foldl applyDbEvent s) := by
    intro evs
    induction evs with
    | nil => intro s hs; exact hs
    | cons e t ih =>
      intro s hs
      rw [List.foldl_cons]
      exact ih _ (applyDbEvent_inv s e hs)
  intro evs
  exact gen evs initState ⟨fun _ => rfl, by intro u hu; simp [initState] at hu⟩

/-- Claim C3: inserting a single record into an empty state (aggregate
absent, or present with all fields zero) and then deleting that same
record returns the aggregate to all-zero fields — both counters 0,
`totalTextExtracted` 0, and `averageConfidence` 0. -/
theorem insert_delete_roundtrip :
    ∀ r : ExtractionRecord,
      applyDbEvent (applyDbEvent initState (.insert r)) (.delete 0) =
        ⟨[], some ⟨0, 0, 0, 0⟩⟩ ∧
      applyDbEvent (applyDbEvent ⟨[], some ⟨0, 0, 0, 0⟩⟩ (.insert r)) (.delete 0) =
        ⟨[], some ⟨0, 0, 0, 0⟩⟩ := by
  intro r
  constructor <;>
    simp [applyDbEvent, initState, update_user_analytics_on_extraction,
      update_user_analytics_on_extraction_delete, avgConfidence]

/-- The text refuting claim C4's literal special-character clause: its
six underscores are special under the spec's "non-alphanumeric,
non-space" reading but are word characters to the code's `[^\w\s]`. -/
def c4Counterexample : List Char := String.toList "aaaa __ __ __"

/-- Claim C4 (counterexample): the heuristic is not the function the
claim words state.  On `"aaaa __ __ __"` the code counts 0 special
characters and returns 0.5, while the claimed formula counts the 6
underscores as special and yields 0.55. -/
theorem calculateConfidence_specFormula_ne :
    calculateConfidence c4Counterexample ≠ confidenceSpecFormula c4Counterexample := by
  have h1 : wordCount c4Counterexample = 4 := by decide
  have h2 : c4Counterexample.any isSentencePunct = false := by decide
  have h3 : c4Counterexample.any isDigitChar = false := by decide
  have h4 : specialCharCount c4Counterexample = 0 := by decide
  have h5 : claimedSpecialCount c4Counterexample = 6 := by decide
  have h6 : c4Counterexample.isEmpty = false := by decide
  have h7 : c4Counterexample.length = 13 := by decide
  simp [calculateConfidence, confidenceSpecFormula, h1, h2, h3, h4, h5, h6, h7]
  norm_num [min_def]

/-- Claim C4 (amended): the image-path heuristic equals the claimed
piecewise function once the special-character clause counts the matches
of `[^\w\s]` (underscore excluded); and every text with word count over
20, sentence punctuation, a digit, and more than 5 such special
characters scores exactly 0.98 (the length floor cannot fire, since more
than 20 words force at least 20 characters). -/
theorem calculateConfidence_amendedFormula :
    (∀ t : List Char, calculateConfidence t = confidenceAmendedFormula t) ∧
    (∀ t : List Char, wordCount t > 20 → t.any isSentencePunct = true →
       t.any isDigitChar = true → specialCharCount t > 5 →
       calculateConfidence t = 98/100) := by
  constructor
  · intro t
    unfold calculateConfidence confidenceAmendedFormula
    split_ifs <;> norm_num
  · intro t hw hs hd hsp
    have hlen : 20 ≤ t.length := by have := wordCount_le t; omega
    have hcond : ¬(t.isEmpty = true ∨ t.length < 10) := by
      rintro (h | h)
      · rw [List.isEmpty_iff] at h; subst h; simp at hlen
      · omega
    simp only [calculateConfidence]
    rw [if_neg hcond]
    simp only [hw, hs, hd, hsp, if_true, gt_iff_lt]
    norm_num [min_def]

/-- A text with 21 words, a period, a digit, and 7 special characters,
used to witness the 0.98 branch of `calculateConfidence_amendedFormula`. -/
def c4MaxText : List Char :=
  String.toList "a1. ; ; ; ; ; ; a a a a a a a a a a a a a a"

theorem calculateConfidence_amendedFormula_witness :
    calculateConfidence c4MaxText = 98/100 :=
  calculateConfidence_amendedFormula.2 c4MaxText (by decide) (by decide)
    (by decide) (by decide)

/-- Claim C5: the refusal detector returns true exactly when the
lower-cased text contains one of the nine fixed markers as a substring;
in particular it fires on "I'm sorry, I cannot process this" and not on
"Total: $42.00, Items: 3". -/
theorem isRefusalResponse_markers :
    (∀ t : List Char, isRefusalResponse t = true ↔
       ∃ p ∈ refusalPatterns, ∃ pre post : List Char,
         pre ++ p ++ post = toLowerList t) ∧
    isRefusalResponse
      (String.toList "I" ++ [apos] ++ String.toList "m sorry, I cannot process this") = true ∧
    isRefusalResponse (String.toList "Total: $42.00, Items: 3") = false := by
  refine ⟨?_, by decide, by decide⟩
  intro t
  simp [isRefusalResponse, includes, List.any_eq_true, List.IsInfix]

/-- Claim C6: for input that is non-blank after trimming, the enhance
operation degrades to the original text with confidence exactly 0.7 when
the service call fails (never raising — the first clause holds for every
input), degrades to the original text with confidence exactly 0.8 when
the returned text is detected as a refusal, and returns the service text
with confidence exactly 0.95 on successful enhancement. -/
theorem enhanceExtractedText_degrade :
    ∀ (text : List Char) (content : Option (List Char)),
      enhanceExtractedText text .transportFail = (text, 7/10) ∧
      ((trim text).isEmpty = false → isRefusalResponse (jsOr content text) = true →
        enhanceExtractedText text (.serviceOk content) = (text, 8/10)) ∧
      ((trim text).isEmpty = false → isRefusalResponse (jsOr content text) = false →
        enhanceExtractedText text (.serviceOk content) = (jsOr content text, 95/100)) := by
  intro text content
  refine ⟨?_, ?_, ?_⟩
  · cases h : (trim text).isEmpty <;>
      simp [enhanceExtractedText, enhanceExtractedTextBody, h]
  · intro h hr; simp [enhanceExtractedText, enhanceExtractedTextBody, h, hr]
  · intro h hr; simp [enhanceExtractedText, enhanceExtractedTextBody, h, hr]

/-- Sample extraction text used to witness `enhanceExtractedText_degrade`. -/
def c6Original : List Char := String.toList "Here is the extracted invoice text"

/-- A refusal-shaped service reply for the witness. -/
def c6Refusal : List Char := String.toList "I cannot process this request"

/-- A normal enhanced service reply for the witness. -/
def c6Enhanced : List Char := String.toList "Enhanced invoice details 456."

theorem enhanceExtractedText_degrade_witness :
    enhanceExtractedText c6Original .transportFail = (c6Original, 7/10) ∧
    enhanceExtractedText c6Original (.serviceOk (some c6Refusal)) = (c6Original, 8/10) ∧
    enhanceExtractedText c6Original (.serviceOk (some c6Enhanced)) =
      (jsOr (some c6Enhanced) c6Original, 95/100) :=
  ⟨(enhanceExtractedText_degrade c6Original (some c6Refusal)).1,
   (enhanceExtractedText_degrade c6Original (some c6Refusal)).2.1 (by decide) (by decide),
   (enhanceExtractedText_degrade c6Original (some c6Enhanced)).2.2 (by decide) (by decide)⟩

/-- Claim C7 (counterexample): on empty input the enhance operation does
not fail — its own `catch` swallows the validation throw of the body and
the call returns the original (empty) text with confidence 0.7, even
when the service outcome would have been a successful enhancement. -/
theorem enhanceExtractedText_empty_returns :
    enhanceExtractedTextBody []
        (.serviceOk (some (String.toList "Cleaned text here"))) =
      .error .validationError ∧
    enhanceExtractedText []
        (.serviceOk (some (String.toList "Cleaned text here"))) =
      ([], 7/10) := by
  constructor <;> rfl

/-- Claim C7 (amended): for every input whose trimmed form is empty, the
body of enhance raises a `ValidationError`, but the surrounding catch
swallows it, so the operation returns the original text with confidence
exactly 0.7 instead of propagating the error. -/
theorem enhanceExtractedText_empty_amended :
    ∀ (text : List Char) (o : CallOutcome), (trim text).isEmpty = true →
      enhanceExtractedTextBody text o = .error .validationError ∧
      enhanceExtractedText text o = (text, 7/10) := by
  intro text o h
  constructor <;> simp [enhanceExtractedTextBody, enhanceExtractedText, h]

theorem enhanceExtractedText_empty_amended_witness :
    enhanceExtractedTextBody (String.toList "   ") (.serviceOk none) =
      .error .validationError ∧
    enhanceExtractedText (String.toList "   ") (.serviceOk none) =
      (String.toList "   ", 7/10) :=
  enhanceExtractedText_empty_amended (String.toList "   ") (.serviceOk none) (by decide)

/-- Claim C8: `extractTextFromDocument` never succeeds with empty text —
every `.ok` result carries a non-empty string (the primary path requires
non-blank trimmed text and the refusal-retry path substitutes a fixed
non-empty fallback for a missing or empty reply) — and when the primary
call's text is blank after trimming the operation fails with
`extractionError`. -/
theorem extractTextFromDocument_ok_ne_nil :
    ∀ (apiKey fileType : List Char) (o1 o2 : CallOutcome),
      (∀ t c, extractTextFromDocument apiKey fileType o1 o2 = .ok (t, c) → t ≠ []) ∧
      (∀ content, o1 = .serviceOk content → (trim apiKey).isEmpty = false →
        (trim (jsOr content [])).isEmpty = true →
        extractTextFromDocument apiKey fileType o1 o2 = .error .extractionError) := by
  intro apiKey fileType o1 o2
  constructor
  · intro t c h
    by_cases hk : (trim apiKey).isEmpty = true
    · simp [extractTextFromDocument, hk] at h
    · rw [Bool.not_eq_true] at hk
      cases o1 with
      | transportFail => simp [extractTextFromDocument, hk] at h
      | serviceOk content =>
        by_cases he : (trim (jsOr content [])).isEmpty = true
        · simp [extractTextFromDocument, hk, he] at h
        · rw [Bool.not_eq_true] at he
          by_cases hr : isRefusalResponse (jsOr content []) = true
          · simp only [extractTextFromDocument, hk, he, hr] at h
            simp at h
            cases o2 with
            | transportFail => simp [extractWithAlternativeMethod] at h
            | serviceOk c2 =>
              simp [extractWithAlternativeMethod] at h
              rcases h with ⟨h1, -⟩
              subst h1
              exact jsOr_ne_nil (by decide)
          · rw [Bool.not_eq_true] at hr
            simp [extractTextFromDocument, hk, he, hr] at h
            rcases h with ⟨h1, -⟩
            subst h1
            exact ne_nil_of_trim he
  · intro content h1 hk he
    subst h1
    simp [extractTextFromDocument, hk, he]

/-- Document text used to witness `extractTextFromDocument_ok_ne_nil`. -/
def c8DocText : List Char := String.toList "The quick brown fox 123."

theorem extractTextFromDocument_ok_ne_nil_witness : c8DocText ≠ [] :=
  (extractTextFromDocument_ok_ne_nil (String.toList "sk-key")
      (String.toList "application/pdf") (.serviceOk (some c8DocText))
      (.serviceOk none)).1
    c8DocText
    (calculateDocumentConfidence c8DocText (String.toList "application/pdf"))
    rfl

/-- Text returned for successful files in the three-file batch scenario. -/
def demoSuccessText : List Char := String.toList "Invoice 123 total 45.00"

/-- A processing function that fails exactly on the second file of the
scenario batch. -/
def demoProcess : BatchFile → Except Unit PageResult := fun f =>
  if f.name = String.toList "b.png" then .error ()
  else .ok ⟨f.name, demoSuccessText, 9/10, 50⟩

/-- The three-file batch of the scenario. -/
def demoFiles : List BatchFile :=
  [⟨String.toList "a.png", 1000⟩, ⟨String.toList "b.png", 2000⟩,
   ⟨String.toList "c.png", 3000⟩]

/-- Claim C9: the batch loop processes files sequentially in submission
order and yields exactly one outcome per input file — the outcome stream
is precisely the per-file map of the processing result, so it has one
entry per file and a failure never aborts the remaining files; in
particular a three-file batch whose second file fails produces the
outcomes success, failure, success in order, with both successful rows
kept. -/
theorem batchLoop_one_outcome_per_file :
    (∀ (process : BatchFile → Except Unit PageResult) (files : List BatchFile),
       (batchLoop process files).2 = files.map (fileOutcome process) ∧
       ((batchLoop process files).2).length = files.length) ∧
    handleFileSelect demoProcess demoFiles =
      some ([⟨String.toList "a.png", demoSuccessText, 9/10, 50⟩,
             ⟨String.toList "c.png", demoSuccessText, 9/10, 50⟩],
            [.success (String.toList "a.png")
               ⟨String.toList "a.png", demoSuccessText, 9/10, 50⟩,
             .failure (String.toList "b.png"),
             .success (String.toList "c.png")
               ⟨String.toList "c.png", demoSuccessText, 9/10, 50⟩]) := by
  constructor
  · intro process files
    have hmap : (batchLoop process files).2 = files.map (fileOutcome process) := by
      induction files with
      | nil => rfl
      | cons f fs ih =>
        cases h : process f <;> simp [batchLoop, fileOutcome, h, ih]
    exact ⟨hmap, by rw [hmap, List.length_map]⟩
  · rfl

/-- Claim C10: every POST request with the required fields present whose
`file_type` does not start with `image/` is answered `success: false`
with HTTP status 400 and the fixed not-implemented error, with no OpenAI
call issued and no extraction row inserted — although the upload
interface's accept list includes the PDF, plain-text and Word document
types, none of which start with `image/`. -/
theorem extractTextHandler_non_image_400 :
    (∀ (req : ExtractTextRequest) (o1 o2 : CallOutcome),
       req.file_data.isEmpty = false → req.file_name.isEmpty = false →
       req.file_type.isEmpty = false →
       (String.toList "image/").isPrefixOf req.file_type = false →
       extractTextHandler .post req o1 o2 =
         (⟨400, false, some docNotImplementedMsg, none⟩, ⟨0, 0⟩)) ∧
    String.toList "application/pdf" ∈ acceptedUploadTypes ∧
    String.toList "text/*" ∈ acceptedUploadTypes ∧
    String.toList "application/msword" ∈ acceptedUploadTypes ∧
    String.toList "application/vnd.openxmlformats-officedocument.wordprocessingml.document"
      ∈ acceptedUploadTypes ∧
    (String.toList "image/").isPrefixOf (String.toList "application/pdf") = false ∧
    (String.toList "image/").isPrefixOf (String.toList "text/*") = false ∧
    (String.toList "image/").isPrefixOf (String.toList "application/msword") = false ∧
    (String.toList "image/").isPrefixOf
      (String.toList "application/vnd.openxmlformats-officedocument.wordprocessingml.document")
      = false := by
  refine ⟨?_, by decide, by decide, by decide, by decide, by decide, by decide,
    by decide, by decide⟩
  intro req o1 o2 h1 h2 h3 h4
  simp at h4
  simp [extractTextHandler, h1, h2, h3, h4]

/-- A well-formed PDF extraction request used to witness
`extractTextHandler_non_image_400`. -/
def c10PdfRequest : ExtractTextRequest :=
  { file_data := String.toList "JVBERi0xLjQ="
    file_name := String.toList "report.pdf"
    file_type := String.toList "application/pdf"
    openai_api_key := some (String.toList "sk-demo")
    user_id := some (String.toList "user-1")
    enhance_text := false }

theorem extractTextHandler_non_image_400_witness :
    extractTextHandler .post c10PdfRequest (.serviceOk none) .transportFail =
      (⟨400, false, some docNotImplementedMsg, none⟩, ⟨0, 0⟩) :=
  extractTextHandler_non_image_400.1 c10PdfRequest (.serviceOk none) .transportFail
    (by decide) (by decide) (by decide) (by decide)
